import Mathlib

/-!
Shallow embedding of the heuristic resume/document analyzer
(`components/resume_analyzer.py` of SkillMatch-Analyzer) and proofs about it.

Text is modelled as `List Char` (one Python `str` character per list entry).
Python floats produced by true division are modelled exactly as rationals.
Character classes (`\w`, `\s`, `str.lower`, `str.isupper`) are modelled on
their ASCII behaviour, which is what the analyzer's keyword tables and the
concrete documents below exercise.
-/

/-- Text, one Python string character per entry. -/
abbrev Str := List Char

/-- ASCII whitespace, the characters Python `str.strip`/`str.split`/`\s` treat
as whitespace. -/
def isSpaceB (c : Char) : Bool :=
  c == ' ' || c == '\t' || c == '\n' || c == '\r' || c == '\x0b' || c == '\x0c'

/-- Python regex word character `\w` (ASCII fragment): letter, digit or `_`. -/
def isWordChar (c : Char) : Bool :=
  ('a' ≤ c && c ≤ 'z') || ('A' ≤ c && c ≤ 'Z') || ('0' ≤ c && c ≤ '9') || c == '_'

/-- Python `str.lower` (ASCII fragment). -/
def lowerS (s : Str) : Str := s.map Char.toLower

/-- Python `str.strip`: drop leading and trailing whitespace. -/
def stripStr (s : Str) : Str :=
  ((s.dropWhile isSpaceB).reverse.dropWhile isSpaceB).reverse

/-- Split a string at every character satisfying `p`, keeping empty pieces:
`splitP (· == c)` is Python `str.split(c)` for a one-character separator. -/
def splitP (p : Char → Bool) : Str → List Str
  | [] => [[]]
  | c :: rest =>
    let r := splitP p rest
    if p c then [] :: r
    else
      match r with
      | [] => [[c]]
      | l :: ls => (c :: l) :: ls

/-- Python `text.split("\n")`. -/
def linesOf (s : Str) : List Str := splitP (fun c => c == '\n') s

/-- Python `len(text.split())`: number of maximal nonblank runs. -/
def wordCountPy (s : Str) : Nat :=
  ((splitP isSpaceB s).filter (fun w => !w.isEmpty)).length

/-- Python `pat in hay` for strings: `pat` occurs as a contiguous substring. -/
def containsSub (hay pat : Str) : Bool :=
  (List.range (hay.length + 1)).any fun i => (hay.drop i).take pat.length == pat

/-- Python `" ".join(parts)`. -/
def joinSp (parts : List Str) : Str := (List.intersperse [' '] parts).flatten

/-- Does position `i` of `s` hold a `\w` character? (`false` out of range). -/
def wordAtPos (s : Str) (i : Nat) : Bool :=
  match s.drop i with
  | [] => false
  | c :: _ => isWordChar c

/-- Python regex `\b` holds at position `i` of `s`: the word-character status
of the text changes there (positions outside the text count as non-word). -/
def wordBoundary (s : Str) (i : Nat) : Bool :=
  (match i with
   | 0 => false
   | j + 1 => wordAtPos s j) != wordAtPos s i

/-- Python `re.search(rf"\b{re.escape(pat)}\b", s)` for a literal `pat`:
some occurrence of `pat` in `s` has a word boundary at both ends. -/
def reSearchWord (pat s : Str) : Bool :=
  (List.range (s.length + 1)).any fun i =>
    ((s.drop i).take pat.length == pat) && wordBoundary s i
      && wordBoundary s (i + pat.length)

/-- The spec's wording for the skill matcher: the text contains the skill
phrase bounded by word boundaries at the phrase's start and end. -/
def WholeWordOccurs (pat s : Str) : Prop :=
  ∃ i, i ≤ s.length ∧ (s.drop i).take pat.length = pat ∧
    wordBoundary s i = true ∧ wordBoundary s (i + pat.length) = true

/-- Python `re.sub(r"[-_/]", " ", s)`: the separator normalization done by
`calculate_keyword_match` before skill search. -/
def normalizeSep (s : Str) : Str :=
  s.map fun c => if c == '-' || c == '_' || c == '/' then ' ' else c

/-- Result record of `ResumeAnalyzer.calculate_keyword_match`. -/
structure KeywordMatch where
  score : ℚ
  found_skills : List Str
  missing_skills : List Str
deriving DecidableEq

/-- `ResumeAnalyzer.calculate_keyword_match`: lower-case the text, normalize
`-_/` to spaces, sort each required skill into found/missing by a whole-word
regex search, and score `len(found)/len(required) * 100` (0 on an empty
requirement list). -/
def calculate_keyword_match (resume_text : Str) (required_skills : List Str) :
    KeywordMatch :=
  let t := normalizeSep (lowerS resume_text)
  let fm := required_skills.foldl
    (fun (fm : List Str × List Str) skill =>
      if reSearchWord (lowerS skill) t then (fm.1 ++ [skill], fm.2)
      else (fm.1, fm.2 ++ [skill]))
    ([], [])
  { score :=
      if required_skills.isEmpty then 0
      else ((fm.1.length : ℚ) / (required_skills.length : ℚ)) * 100
    found_skills := fm.1
    missing_skills := fm.2 }

/-- The score field only depends on the found list's length (definitional). -/
lemma calc_score_eq (t : Str) (skills : List Str) :
    (calculate_keyword_match t skills).score =
      if skills.isEmpty then 0
      else (((calculate_keyword_match t skills).found_skills.length : ℚ) /
        (skills.length : ℚ)) * 100 := rfl

/-- Convert a list of string literals to `List Str`. -/
def strs (l : List String) : List Str := l.map String.data

/-- The `self.document_types` table built in `ResumeAnalyzer.__init__`,
in insertion (= Python dict iteration) order. -/
def document_types : List (String × List Str) :=
  [("resume", strs
      ["experience", "education", "skills", "work", "project", "objective",
       "summary", "employment", "qualification", "achievements"]),
   ("marksheet", strs
      ["grade", "marks", "score", "semester", "cgpa", "sgpa", "examination",
       "result", "academic year", "percentage"]),
   ("certificate", strs
      ["certificate", "certification", "awarded", "completed", "achievement",
       "training", "course completion", "qualified"]),
   ("id card", strs
      ["id card", "identity", "student id", "employee id", "valid until",
       "date of issue", "identification"])]

/-- The generic resume keyword bag `self.document_types["resume"]`, used as
the cross-section close marker by every section extractor. -/
def resumeBag : List Str :=
  strs ["experience", "education", "skills", "work", "project", "objective",
        "summary", "employment", "qualification", "achievements"]

/-- Python `sum(1 for keyword in keywords if keyword in text)`. -/
def matchesCount (keywords : List Str) (text : Str) : Nat :=
  keywords.foldl (fun n kw => if containsSub text kw then n + 1 else n) 0

/-- The composite score `density * 0.7 + frequency * 0.3` computed per
document type by `detect_document_type` (text already lower-cased). -/
def scoreOf (keywords : List Str) (text : Str) : ℚ :=
  ((matchesCount keywords text : ℚ) / (keywords.length : ℚ)) * 0.7 +
    ((matchesCount keywords text : ℚ) / ((wordCountPy text : ℚ) + 1)) * 0.3

/-- Python `max(scores.items(), key=lambda x: x[1])` over a nonempty list:
the first item attaining the maximal value wins ties. -/
def bestOf (scores : List (String × ℚ)) : String × ℚ :=
  match scores with
  | [] => ("", 0)
  | s :: rest => rest.foldl (fun best x => if x.2 > best.2 then x else best) s

/-- `ResumeAnalyzer.detect_document_type`: score the lower-cased text against
each keyword bag and return the best label, or "Unknown document type" when
the best composite score is not above 0.15. -/
def detect_document_type (text : Str) : String :=
  let t := lowerS text
  let scores := document_types.map fun p => (p.1, scoreOf p.2 t)
  let best := bestOf scores
  if best.2 > 0.15 then best.1 else "Unknown document type"

/-- ASCII uppercase letter. -/
def isUpperAsc (c : Char) : Bool := 'A' ≤ c && c ≤ 'Z'

/-- ASCII lowercase letter. -/
def isLowerAsc (c : Char) : Bool := 'a' ≤ c && c ≤ 'z'

/-- ASCII letter (a Python "cased" character, ASCII fragment). -/
def isAlphaAsc (c : Char) : Bool := isUpperAsc c || isLowerAsc c

/-- States of the deterministic scanner for the header pattern
`^[A-Z][a-z]+(\s[A-Z][a-z]+)*$`. -/
inductive TState where
  | needUpper
  | needLower
  | inRun
deriving DecidableEq

/-- Deterministic scanner for `re.match(r"^[A-Z][a-z]+(\s[A-Z][a-z]+)*$", s)`:
an upper-case letter, one or more lower-case letters, then any number of
(single whitespace, upper, one or more lower) groups, ending exactly at the
end of the string.  The pattern is deterministic because a lower-case letter
forces the `[a-z]+` loop to continue and a whitespace forces another group. -/
def titleScan : TState → Str → Bool
  | .needUpper, [] => false
  | .needUpper, c :: rest => isUpperAsc c && titleScan .needLower rest
  | .needLower, [] => false
  | .needLower, c :: rest => isLowerAsc c && titleScan .inRun rest
  | .inRun, [] => true
  | .inRun, c :: rest =>
    if isLowerAsc c then titleScan .inRun rest
    else isSpaceB c && titleScan .needUpper rest

/-- Full-line match of the Title-Case header pattern. -/
def titleMatch (s : Str) : Bool := titleScan .needUpper s

/-- Python `str.isupper` (ASCII fragment): at least one cased character and
every cased character upper-case. -/
def isUpperPy (s : Str) : Bool :=
  let cased := s.filter isAlphaAsc
  !cased.isEmpty && cased.all isUpperAsc

/-- The bullet glyphs tuple of `check_formatting`. -/
def bulletChars : List Char := ['•', '-', '*', '→', '‣', '·']

/-- Python `line.startswith(bullet_chars)` for the one-character glyphs. -/
def bulletStart (s : Str) : Bool :=
  match s with
  | [] => false
  | c :: _ => bulletChars.contains c

/-- Character class `[\w\.-]` of the email pattern. -/
def emailCharB (c : Char) : Bool := isWordChar c || c == '.' || c == '-'

/-- After `\w+` of the email pattern: `\b` holds here, or the `\w+` loop can
be extended by another word character. -/
def emailEndScan : Str → Bool
  | [] => true
  | c :: rest => if isWordChar c then emailEndScan rest else true

/-- `\w+\b`, the part of the email pattern after the final dot. -/
def emailWordTail : Str → Bool
  | [] => false
  | c :: rest => isWordChar c && emailEndScan rest

/-- `[\w\.-]+\.\w+\b`, the part of the email pattern after `@`.  The boolean
records whether at least one `[\w\.-]` character has been consumed before
switching on a literal dot. -/
def emailDomTail : Str → Bool → Bool
  | [], _ => false
  | c :: rest, seen =>
    (seen && c == '.' && emailWordTail rest) ||
      (emailCharB c && emailDomTail rest true)

/-- Match of `\b[\w\.-]+@[\w\.-]+\.\w+\b` starting exactly at the current
position, given the preceding character (`none` at the start of the text).
The leading `[\w\.-]+` is deterministic because `@` is not in the class. -/
def emailAt (prev : Option Char) (cs : Str) : Bool :=
  let run := cs.takeWhile emailCharB
  ((match prev with | none => false | some c => isWordChar c) !=
      (match cs with | [] => false | c :: _ => isWordChar c)) &&
    !run.isEmpty &&
    (match cs.drop run.length with
     | '@' :: rest => emailDomTail rest false
     | _ => false)

/-- `re.search` of the email pattern: try every start position, threading the
previous character for the `\b` test. -/
def searchEmailFrom (prev : Option Char) : Str → Bool
  | [] => false
  | c :: rest => emailAt prev (c :: rest) || searchEmailFrom (some c) rest

/-- Python `re.search(r"\b[\w\.-]+@[\w\.-]+\.\w+\b", text)`. -/
def searchEmail (text : Str) : Bool := searchEmailFrom none text

/-- Character class `[-.\s]` of the phone pattern. -/
def phoneSepB (c : Char) : Bool := c == '-' || c == '.' || isSpaceB c

/-- ASCII digit `\d`. -/
def isDigitB (c : Char) : Bool := '0' ≤ c && c ≤ '9'

/-- Between 0 and `n` further characters of class `p`, then the continuation
(all repetition counts are tried: existence of a match is what is sought). -/
def repUpTo (p : Char → Bool) : Nat → Str → (Str → Bool) → Bool
  | 0, cs, k => k cs
  | n + 1, cs, k =>
    k cs ||
      match cs with
      | [] => false
      | c :: rest => p c && repUpTo p n rest k

/-- Exactly `n` characters of class `p`, then the continuation. -/
def repExact (p : Char → Bool) : Nat → Str → (Str → Bool) → Bool
  | 0, cs, k => k cs
  | _ + 1, [], _ => false
  | n + 1, c :: rest, k => p c && repExact p n rest k

/-- An optional single character of class `p`, then the continuation. -/
def optChar (p : Char → Bool) (cs : Str) (k : Str → Bool) : Bool :=
  k cs ||
    match cs with
    | [] => false
    | c :: rest => p c && k rest

/-- Match of the phone pattern
`(\+?\d{1,3}[-.\s]?)?(\(?\d{2,4}\)?[-.\s]?)?\d{3,5}[-.\s]?\d{3,5}`
starting exactly at the current position. -/
def phoneAt (cs : Str) : Bool :=
  let core : Str → Bool := fun s =>
    repExact isDigitB 3 s fun s1 =>
      repUpTo isDigitB 2 s1 fun s2 =>
        optChar phoneSepB s2 fun s3 =>
          repExact isDigitB 3 s3 fun s4 =>
            repUpTo isDigitB 2 s4 fun _ => true
  let g2 : Str → Bool := fun s =>
    core s ||
      optChar (fun c => c == '(') s fun s1 =>
        repExact isDigitB 2 s1 fun s2 =>
          repUpTo isDigitB 2 s2 fun s3 =>
            optChar (fun c => c == ')') s3 fun s4 =>
              optChar phoneSepB s4 core
  g2 cs ||
    optChar (fun c => c == '+') cs fun s1 =>
      repExact isDigitB 1 s1 fun s2 =>
        repUpTo isDigitB 2 s2 fun s3 =>
          optChar phoneSepB s3 g2

/-- Try a predicate at every position of the text (including the end), as
`re.search` does for a pattern with no `\b` anchor. -/
def searchAt (f : Str → Bool) : Str → Bool
  | [] => f []
  | c :: rest => f (c :: rest) || searchAt f rest

/-- Python `re.search` of the phone pattern. -/
def searchPhone (text : Str) : Bool := searchAt phoneAt text

/-- Match of `linkedin\.com/\w+` starting exactly at the current position. -/
def linkedinAt (cs : Str) : Bool :=
  (cs.take 13 == "linkedin.com/".data) &&
    (match cs.drop 13 with
     | [] => false
     | c :: _ => isWordChar c)

/-- Python `re.search(r"linkedin\.com/\w+", text)`. -/
def searchLinkedin (text : Str) : Bool := searchAt linkedinAt text

/-- Rule 1 of `check_formatting`: fewer than 300 characters. -/
def ruleTooShort (text : Str) : Bool := text.length < 300

/-- Rule 2 of `check_formatting`: no line looks like a section header
(Title-Case full-line match on the stripped line, or `str.isupper` on the
raw line). -/
def ruleNoHeaders (text : Str) : Bool :=
  !((linesOf text).any fun line => titleMatch (stripStr line) || isUpperPy line)

/-- Rule 3 of `check_formatting`: no nonblank line starts (after stripping)
with a bullet glyph. -/
def ruleNoBullets (text : Str) : Bool :=
  !((linesOf text).any fun line =>
      !(stripStr line).isEmpty && bulletStart (stripStr line))

/-- Rule 4 of `check_formatting`: two consecutive lines are blank. -/
def ruleDoubleBlank (text : Str) : Bool :=
  let lines := linesOf text
  (lines.zip (lines.drop 1)).any fun p =>
    (stripStr p.1).isEmpty && (stripStr p.2).isEmpty

/-- Rule 5 of `check_formatting`: none of the email, phone and LinkedIn
patterns matches anywhere in the raw text. -/
def ruleNoContact (text : Str) : Bool :=
  !(searchEmail text || searchPhone text || searchLinkedin text)

/-- `ResumeAnalyzer.check_formatting`: start from 100, apply the five
deduction rules in order, return `max 0 score` and the reasons. -/
def check_formatting (text : Str) : Int × List String :=
  let sd : Int × List String := (100, [])
  let sd := if ruleTooShort text then
      (sd.1 - 30, sd.2 ++ ["Resume is too short!"]) else sd
  let sd := if ruleNoHeaders text then
      (sd.1 - 20, sd.2 ++ ["No clear section headers found!"]) else sd
  let sd := if ruleNoBullets text then
      (sd.1 - 20, sd.2 ++ ["No bullet points found for listing details!"]) else sd
  let sd := if ruleDoubleBlank text then
      (sd.1 - 15, sd.2 ++ ["Inconsistent spacing between sections!"]) else sd
  let sd := if ruleNoContact text then
      (sd.1 - 15, sd.2 ++ ["Missing or improperly formatted contact information!"]) else sd
  (max 0 sd.1, sd.2)

/-- Case-insensitive Python `any(keyword.lower() in line.lower() for keyword
in keywords)`. -/
def anyKwIn (keywords : List Str) (line : Str) : Bool :=
  keywords.any fun kw => containsSub (lowerS line) (lowerS kw)

/-- Case-insensitive Python `any(keyword.lower() == line.lower() for keyword
in keywords)`. -/
def eqAnyKw (keywords : List Str) (line : Str) : Bool :=
  keywords.any fun kw => lowerS kw == lowerS line

/-- The `education_keywords` list of `extract_education`. -/
def educationKeywords : List Str :=
  strs ["education", "academic", "qualification", "degree", "university",
        "college", "school", "institute", "certification", "diploma",
        "bachelor", "master", "phd", "b.tech", "m.tech", "b.e", "m.e",
        "b.sc", "m.sc", "bca", "mca", "b.com", "m.com", "b.cs-it", "imca",
        "bba", "mba", "honors", "scholarship"]

/-- The `experience_keywords` list of `extract_experience`. -/
def experienceKeywords : List Str :=
  strs ["experience", "employment", "work history", "professional experience",
        "work experience", "career history", "professional background",
        "employment history", "job history", "positions held", "job title",
        "job responsibilities", "job description", "job summary"]

/-- The `project_keywords` list of `extract_projects`. -/
def projectKeywords : List Str :=
  strs ["projects", "personal projects", "academic projects", "key projects",
        "major projects", "professional projects", "project experience",
        "relevant projects", "featured projects", "latest projects",
        "top projects"]

/-- The shared line loop of `extract_education` / `extract_experience` /
`extract_projects`: strip the line; a line containing a section keyword
(re)opens the section and is accumulated unless it equals a keyword exactly;
inside the section, a nonblank line containing a generic resume keyword but
no section keyword closes the section (flushing the accumulator), any other
nonblank line is accumulated, and a blank line flushes a nonempty
accumulator into a block.  Leftover accumulator content is flushed at the
end. -/
def sectionLoop (kws : List Str) :
    List Str → Bool → List Str → List Str → List Str
  | [], _, acc, blocks =>
    if acc.isEmpty then blocks else blocks ++ [joinSp acc]
  | line :: rest, inSec, acc, blocks =>
    let l := stripStr line
    if anyKwIn kws l then
      sectionLoop kws rest true
        (if eqAnyKw kws l then acc else acc ++ [l]) blocks
    else if inSec then
      if !l.isEmpty && anyKwIn resumeBag l && !(anyKwIn kws l) then
        sectionLoop kws rest false []
          (if acc.isEmpty then blocks else blocks ++ [joinSp acc])
      else if !l.isEmpty then
        sectionLoop kws rest true (acc ++ [l]) blocks
      else if acc.isEmpty then
        sectionLoop kws rest true [] blocks
      else
        sectionLoop kws rest true [] (blocks ++ [joinSp acc])
    else
      sectionLoop kws rest false acc blocks

/-- `ResumeAnalyzer.extract_education`. -/
def extract_education (text : Str) : List Str :=
  sectionLoop educationKeywords (linesOf text) false [] []

/-- `ResumeAnalyzer.extract_experience`. -/
def extract_experience (text : Str) : List Str :=
  sectionLoop experienceKeywords (linesOf text) false [] []

/-- `ResumeAnalyzer.extract_projects`. -/
def extract_projects (text : Str) : List Str :=
  sectionLoop projectKeywords (linesOf text) false [] []

/-- The `skills_keywords` list of `extract_skills`. -/
def skillsKeywords : List Str :=
  strs ["skills", "technical skills", "competencies", "expertise",
        "core competencies", "professional skills", "key skills",
        "technical expertise", "proficiencies", "qualifications",
        "top skills", "key skill", "major skill", "personal skill",
        "soft skills", "soft skill", "soft skillset"]

/-- The common skill separators of `extract_skills`. -/
def skillSeparators : List Char :=
  [',', '•', '|', '/', '\\', '·', '>', '-', '–', '―']

/-- Python `set.add` modelled on lists: append if not already present (the
set is modelled in insertion order). -/
def insertSkill (acc : List Str) (s : Str) : List Str :=
  if s ∈ acc then acc else acc ++ [s]

/-- The flush step of `extract_skills`: for each separator occurring in the
joined entry, split on it, strip the parts, and add every nonblank part to
the skill set.  An entry containing no separator at all adds nothing. -/
def processEntryText (skills : List Str) (entry : Str) : List Str :=
  skillSeparators.foldl
    (fun acc sep =>
      if entry.contains sep then
        (((splitP (fun c => c == sep) entry).map stripStr).filter
            (fun part => !part.isEmpty)).foldl insertSkill acc
      else acc)
    skills

/-- The line loop of `extract_skills`: same section logic as `sectionLoop`,
with every flush going through `processEntryText` instead of producing a
block. -/
def skillsLoop :
    List Str → Bool → List Str → List Str → List Str
  | [], _, acc, skills =>
    if acc.isEmpty then skills else processEntryText skills (joinSp acc)
  | line :: rest, inSec, acc, skills =>
    let l := stripStr line
    if anyKwIn skillsKeywords l then
      skillsLoop rest true
        (if eqAnyKw skillsKeywords l then acc else acc ++ [l]) skills
    else if inSec then
      if !l.isEmpty && anyKwIn resumeBag l && !(anyKwIn skillsKeywords l) then
        skillsLoop rest false []
          (if acc.isEmpty then skills else processEntryText skills (joinSp acc))
      else if !l.isEmpty then
        skillsLoop rest true (acc ++ [l]) skills
      else if acc.isEmpty then
        skillsLoop rest true [] skills
      else
        skillsLoop rest true [] (processEntryText skills (joinSp acc))
    else
      skillsLoop rest false acc skills

/-- `ResumeAnalyzer.extract_skills` (the skill set in insertion order). -/
def extract_skills (text : Str) : List Str :=
  skillsLoop (linesOf text) false [] []

/-! ### Helper lemmas -/

/-- The found/missing fold of `calculate_keyword_match` is a filter pair. -/
lemma foldl_partition (p : Str → Bool) (l : List Str) (a b : List Str) :
    l.foldl
        (fun (fm : List Str × List Str) s =>
          if p s then (fm.1 ++ [s], fm.2) else (fm.1, fm.2 ++ [s]))
        (a, b) =
      (a ++ l.filter p, b ++ l.filter (fun s => !p s)) := by
  induction l generalizing a b with
  | nil => simp
  | cons x xs ih =>
    by_cases h : p x <;> simp [List.filter_cons, h, ih]

/-- `found_skills` is the filter of the required skills by the whole-word
search predicate. -/
lemma calc_found_eq (t : Str) (skills : List Str) :
    (calculate_keyword_match t skills).found_skills =
      skills.filter
        (fun s => reSearchWord (lowerS s) (normalizeSep (lowerS t))) := by
  simp [calculate_keyword_match, foldl_partition]

/-- `missing_skills` is the filter by the negated predicate. -/
lemma calc_missing_eq (t : Str) (skills : List Str) :
    (calculate_keyword_match t skills).missing_skills =
      skills.filter
        (fun s => !reSearchWord (lowerS s) (normalizeSep (lowerS t))) := by
  simp [calculate_keyword_match, foldl_partition]

/-- The executable whole-word search agrees with the declarative
bounded-occurrence property. -/
lemma reSearchWord_iff (pat s : Str) :
    reSearchWord pat s = true ↔ WholeWordOccurs pat s := by
  unfold reSearchWord WholeWordOccurs
  rw [List.any_eq_true]
  constructor
  · rintro ⟨i, hi, h⟩
    rw [List.mem_range] at hi
    simp only [Bool.and_eq_true, beq_iff_eq] at h
    exact ⟨i, Nat.lt_succ_iff.mp hi, h.1.1, h.1.2, h.2⟩
  · rintro ⟨i, hle, h1, h2, h3⟩
    refine ⟨i, by rw [List.mem_range]; omega, ?_⟩
    simp only [Bool.and_eq_true, beq_iff_eq]
    exact ⟨⟨h1, h2⟩, h3⟩

/-! ### C1: found/missing partition the required skills, and the score -/

/-- C1. For every text and every non-empty list of non-empty required
skills, `calculate_keyword_match` sorts each required skill into exactly one
of `found_skills`/`missing_skills` (no skill in both, the two lists together
a permutation of the input, lengths adding up), and the returned score is
`len(found) / len(required) * 100`. -/
theorem keyword_match_partitions_and_scores (text : Str) (skills : List Str)
    (hne : skills ≠ []) (_hnonempty : ∀ s ∈ skills, s ≠ []) :
    (∀ s ∈ skills,
        (s ∈ (calculate_keyword_match text skills).found_skills ↔
          s ∉ (calculate_keyword_match text skills).missing_skills)) ∧
    (∀ s, ¬(s ∈ (calculate_keyword_match text skills).found_skills ∧
        s ∈ (calculate_keyword_match text skills).missing_skills)) ∧
    ((calculate_keyword_match text skills).found_skills ++
        (calculate_keyword_match text skills).missing_skills).Perm skills ∧
    (calculate_keyword_match text skills).found_skills.length +
        (calculate_keyword_match text skills).missing_skills.length =
      skills.length ∧
    (calculate_keyword_match text skills).score =
      ((calculate_keyword_match text skills).found_skills.length : ℚ) /
        (skills.length : ℚ) * 100 := by
  rw [calc_found_eq, calc_missing_eq]
  refine ⟨?_, ?_, ?_, ?_, ?_⟩
  · intro s hs
    simp only [List.mem_filter, hs, true_and, Bool.not_eq_true']
    cases h : reSearchWord (lowerS s) (normalizeSep (lowerS text)) <;> simp [h]
  · rintro s ⟨hf, hm⟩
    simp only [List.mem_filter, Bool.not_eq_true'] at hf hm
    rw [hf.2] at hm
    simp at hm
  · exact List.filter_append_perm _ skills
  · have := (List.filter_append_perm
      (fun s => reSearchWord (lowerS s) (normalizeSep (lowerS text)))
      skills).length_eq
    simpa using this
  · rw [calc_score_eq, if_neg (by simpa using hne), calc_found_eq]

/-- Witness for C1 at a concrete input. -/
theorem keyword_match_partitions_and_scores_witness :
    (∀ s ∈ [("python".data : Str)],
        (s ∈ (calculate_keyword_match "i use python daily".data
            ["python".data]).found_skills ↔
          s ∉ (calculate_keyword_match "i use python daily".data
            ["python".data]).missing_skills)) ∧
    (∀ s, ¬(s ∈ (calculate_keyword_match "i use python daily".data
            ["python".data]).found_skills ∧
        s ∈ (calculate_keyword_match "i use python daily".data
            ["python".data]).missing_skills)) ∧
    ((calculate_keyword_match "i use python daily".data
          ["python".data]).found_skills ++
        (calculate_keyword_match "i use python daily".data
          ["python".data]).missing_skills).Perm [("python".data : Str)] ∧
    (calculate_keyword_match "i use python daily".data
          ["python".data]).found_skills.length +
        (calculate_keyword_match "i use python daily".data
          ["python".data]).missing_skills.length =
      [("python".data : Str)].length ∧
    (calculate_keyword_match "i use python daily".data
        ["python".data]).score =
      ((calculate_keyword_match "i use python daily".data
          ["python".data]).found_skills.length : ℚ) /
        ([("python".data : Str)].length : ℚ) * 100 :=
  keyword_match_partitions_and_scores "i use python daily".data
    ["python".data] (by decide) (by decide)

/-! ### C7: an empty requirement list -/

/-- C7. For every text, an empty required-skill list yields score 0 and
empty found/missing lists (no division-by-zero: the score is defined by the
guarded branch). -/
theorem keyword_match_empty_requirements (text : Str) :
    calculate_keyword_match text [] =
      { score := 0, found_skills := [], missing_skills := [] } := rfl

/-! ### C6: whole-word matching characterised -/

/-- C6. A required skill is found iff the lower-cased, separator-normalized
text contains the lower-cased skill phrase with word boundaries at the
phrase's two ends; "Java" is found in "I know Java and JavaScript", and a
skill occurring only inside a longer word ("Java" in "JavaScript") is
missing. -/
theorem keyword_match_whole_word_iff :
    (∀ (text : Str) (skills : List Str), ∀ skill ∈ skills,
        (skill ∈ (calculate_keyword_match text skills).found_skills ↔
          WholeWordOccurs (lowerS skill) (normalizeSep (lowerS text)))) ∧
    (calculate_keyword_match "I know Java and JavaScript".data
        ["Java".data]).found_skills = ["Java".data] ∧
    (calculate_keyword_match "JavaScript".data
        ["Java".data]).found_skills = [] ∧
    (calculate_keyword_match "JavaScript".data
        ["Java".data]).missing_skills = ["Java".data] := by
  refine ⟨?_, by decide, by decide, by decide⟩
  intro text skills skill hs
  rw [calc_found_eq, List.mem_filter, ← reSearchWord_iff]
  simp [hs]

/-- Witness for C6 at a concrete input. -/
theorem keyword_match_whole_word_iff_witness :
    ("Java".data ∈ (calculate_keyword_match "I know Java and JavaScript".data
        ["Java".data]).found_skills ↔
      WholeWordOccurs (lowerS "Java".data)
        (normalizeSep (lowerS "I know Java and JavaScript".data))) :=
  keyword_match_whole_word_iff.1 "I know Java and JavaScript".data
    ["Java".data] "Java".data (by decide)

/-! ### C4: the formatting score is 100 minus the triggered deductions -/

/-- The five deduction amounts actually triggered on a text, summed. -/
def deductionSum (text : Str) : Int :=
  (if ruleTooShort text then (30 : Int) else 0) +
    (if ruleNoHeaders text then 20 else 0) +
    (if ruleNoBullets text then 20 else 0) +
    (if ruleDoubleBlank text then 15 else 0) +
    (if ruleNoContact text then 15 else 0)

/-- The reason strings of the triggered rules, in the fixed rule order. -/
def deductionList (text : Str) : List String :=
  (if ruleTooShort text then ["Resume is too short!"] else []) ++
    (if ruleNoHeaders text then ["No clear section headers found!"] else []) ++
    (if ruleNoBullets text then ["No bullet points found for listing details!"] else []) ++
    (if ruleDoubleBlank text then ["Inconsistent spacing between sections!"] else []) ++
    (if ruleNoContact text then ["Missing or improperly formatted contact information!"] else [])

/-- The straight-line deduction chain of `check_formatting` equals the sum
form, with the score in `[0, 100]` (helper, shared by several claims). -/
lemma check_formatting_char (text : Str) :
    check_formatting text = (max 0 (100 - deductionSum text), deductionList text) ∧
    0 ≤ (check_formatting text).1 ∧ (check_formatting text).1 ≤ 100 := by
  unfold check_formatting deductionSum deductionList
  rcases h1 : ruleTooShort text <;> rcases h2 : ruleNoHeaders text <;>
    rcases h3 : ruleNoBullets text <;> rcases h4 : ruleDoubleBlank text <;>
    rcases h5 : ruleNoContact text <;> norm_num

/-- C4. For every text, `check_formatting` returns
`max 0 (100 - sum of triggered deductions)` together with the triggered
reason strings in the fixed rule order, and the returned score is an integer
in `[0, 100]`. -/
theorem check_formatting_sum_of_deductions (text : Str) :
    check_formatting text = (max 0 (100 - deductionSum text), deductionList text) ∧
    0 ≤ (check_formatting text).1 ∧ (check_formatting text).1 ≤ 100 :=
  check_formatting_char text

/-! ### C5: the lower bound on well-formed documents -/

/-- A concrete document satisfying every hypothesis of the claim (the two
literal section lines, at least 300 characters, a bullet line, an email
address) on which `check_formatting` still returns only 65, because the "no
clear section headers" (−20) and "inconsistent spacing" (−15) deductions
both fire. -/
def formattingCexDoc : Str :=
  ("Education: MIT 2020\nSkills: Python, Go\n" ++
   "- built things in the lab and kept notes\n\n\njohn.doe@example.com\n" ++
   "this filler paragraph is written entirely in lower case so that no " ++
   "line of the document looks like a section header while still pushing " ++
   "the total character count of the document comfortably past the three " ++
   "hundred character minimum that rule one of the formatting checker " ++
   "enforces").data

/-- C5, counterexample: `formattingCexDoc` contains the two literal lines,
has at least 300 characters, a bullet line and a valid email address, yet
`check_formatting` scores it 65, below the claimed bound of 70. -/
theorem formatting_seventy_counterexample :
    "Education: MIT 2020".data ∈ linesOf formattingCexDoc ∧
    "Skills: Python, Go".data ∈ linesOf formattingCexDoc ∧
    300 ≤ formattingCexDoc.length ∧
    (∃ l ∈ linesOf formattingCexDoc,
        (stripStr l).isEmpty = false ∧ bulletStart (stripStr l) = true) ∧
    searchEmail formattingCexDoc = true ∧
    (check_formatting formattingCexDoc).1 = 65 ∧
    ¬(70 ≤ (check_formatting formattingCexDoc).1) := by
  set_option maxRecDepth 4000 in decide

/-- C5, amended: under the claim's hypotheses the "too short", "no bullet
points" and "missing contact" deductions cannot fire, so the score is at
least `100 - 20 - 15 = 65` (not 70: the header and spacing deductions,
worth 35 together, are not excluded by the hypotheses). -/
theorem formatting_score_at_least_sixty_five (text : Str)
    (_hedu : "Education: MIT 2020".data ∈ linesOf text)
    (_hski : "Skills: Python, Go".data ∈ linesOf text)
    (hlen : 300 ≤ text.length)
    (hbul : ∃ l ∈ linesOf text,
        (stripStr l).isEmpty = false ∧ bulletStart (stripStr l) = true)
    (hmail : searchEmail text = true) :
    65 ≤ (check_formatting text).1 := by
  have h1 : ruleTooShort text = false := by
    simp [ruleTooShort]
    omega
  have h3 : ruleNoBullets text = false := by
    rcases hbul with ⟨l, hl, hne, hb⟩
    have hany : ((linesOf text).any fun line =>
        !(stripStr line).isEmpty && bulletStart (stripStr line)) = true := by
      rw [List.any_eq_true]
      exact ⟨l, hl, by simp [hne, hb]⟩
    simp [ruleNoBullets, hany]
  have h5 : ruleNoContact text = false := by
    simp [ruleNoContact, hmail]
  have hc := (check_formatting_char text).1
  rw [hc]
  simp only [deductionSum, h1, h3, h5, if_false]
  rcases h2 : ruleNoHeaders text <;> rcases h4 : ruleDoubleBlank text <;> simp

/-- Witness for the amended C5 bound at a concrete input. -/
theorem formatting_score_at_least_sixty_five_witness :
    65 ≤ (check_formatting formattingCexDoc).1 :=
  formatting_score_at_least_sixty_five formattingCexDoc
    (by set_option maxRecDepth 2000 in decide)
    (by set_option maxRecDepth 2000 in decide)
    (by set_option maxRecDepth 2000 in decide)
    (by set_option maxRecDepth 2000 in decide)
    (by set_option maxRecDepth 2000 in decide)

/-! ### C2: the classifier counts substring matches, not whole words -/

/-- C2, counterexample: in "networking" the resume keyword "work" occurs
only as a proper substring of a longer word (no whole-word occurrence), yet
it is counted — the resume bag scores one match and the text is classified
"resume" rather than leaving every score at 0. -/
theorem detect_type_substring_counterexample :
    containsSub "networking".data "work".data = true ∧
    reSearchWord "work".data "networking".data = false ∧
    matchesCount resumeBag (lowerS "networking".data) = 1 ∧
    detect_document_type "networking".data = "resume" := by
  refine ⟨by decide, by decide, by decide, ?_⟩
  have hm1 : matchesCount (strs
      ["experience", "education", "skills", "work", "project", "objective",
       "summary", "employment", "qualification", "achievements"])
      (lowerS "networking".data) = 1 := by decide
  have hm2 : matchesCount (strs
      ["grade", "marks", "score", "semester", "cgpa", "sgpa", "examination",
       "result", "academic year", "percentage"])
      (lowerS "networking".data) = 0 := by decide
  have hm3 : matchesCount (strs
      ["certificate", "certification", "awarded", "completed", "achievement",
       "training", "course completion", "qualified"])
      (lowerS "networking".data) = 0 := by decide
  have hm4 : matchesCount (strs
      ["id card", "identity", "student id", "employee id", "valid until",
       "date of issue", "identification"])
      (lowerS "networking".data) = 0 := by decide
  have hw : wordCountPy (lowerS "networking".data) = 1 := by decide
  have hl1 : (strs
      ["experience", "education", "skills", "work", "project", "objective",
       "summary", "employment", "qualification", "achievements"]).length = 10 := by
    decide
  simp only [detect_document_type, document_types, List.map, scoreOf,
    hm1, hm2, hm3, hm4, hw, hl1]
  norm_num [bestOf]

/-- The fold computing `matches` adds its start value (helper). -/
lemma matchesCount_foldl (p : Str → Bool) (l : List Str) (a : Nat) :
    l.foldl (fun n kw => if p kw then n + 1 else n) a = a + l.countP p := by
  induction l generalizing a with
  | nil => simp
  | cons x xs ih =>
    by_cases h : p x
    · simp [List.countP_cons, h, ih]
      omega
    · simp [List.countP_cons, h, ih]

/-- The `matches` counter of the classifier counts plain substring hits. -/
lemma matchesCount_eq_countP (keywords : List Str) (text : Str) :
    matchesCount keywords text = keywords.countP (fun kw => containsSub text kw) := by
  unfold matchesCount
  rw [matchesCount_foldl]
  simp

/-- C2, amended: the `matches` count of `detect_document_type` counts every
keyword occurring as a plain substring of the lower-cased text, so a keyword
occurring only inside a longer word does contribute — on "networking" the
substring hit on "work" (which is not a whole-word occurrence) makes the
resume score positive and the text is classified "resume". -/
theorem detect_type_counts_substring_matches :
    (∀ (keywords : List Str) (text : Str),
        matchesCount keywords text =
          keywords.countP (fun kw => containsSub text kw)) ∧
    containsSub "networking".data "work".data = true ∧
    reSearchWord "work".data "networking".data = false ∧
    detect_document_type "networking".data = "resume" := by
  refine ⟨matchesCount_eq_countP, by decide, by decide, ?_⟩
  exact detect_type_substring_counterexample.2.2.2

/-! ### C8: whitespace-only input is classified unknown -/

/-- Lower-casing a whitespace character leaves it unchanged (helper). -/
lemma toLower_space (c : Char) (h : isSpaceB c = true) : Char.toLower c = c := by
  simp only [isSpaceB, Bool.or_eq_true, beq_iff_eq] at h
  rcases h with ((((h | h) | h) | h) | h) | h <;> subst h <;> decide

/-- Lower-casing preserves whitespace-only texts (helper). -/
lemma lowerS_all_space (text : Str) (h : text.all isSpaceB = true) :
    (lowerS text).all isSpaceB = true := by
  rw [List.all_eq_true] at h ⊢
  intro c hc
  rw [lowerS, List.mem_map] at hc
  rcases hc with ⟨d, hd, rfl⟩
  rw [toLower_space d (h d hd)]
  exact h d hd

/-- A pattern holding a non-whitespace character is not a substring of a
whitespace-only text (helper). -/
lemma containsSub_all_space (hay pat : Str) (hall : hay.all isSpaceB = true)
    (hpat : pat.any (fun c => !isSpaceB c) = true) :
    containsSub hay pat = false := by
  by_contra hcon
  rw [Bool.not_eq_false] at hcon
  unfold containsSub at hcon
  rw [List.any_eq_true] at hcon
  rcases hcon with ⟨i, -, hi⟩
  rw [beq_iff_eq] at hi
  rw [List.any_eq_true] at hpat
  rcases hpat with ⟨c, hc, hcs⟩
  rw [← hi] at hc
  have hmem : c ∈ hay := List.drop_subset i hay (List.take_subset _ _ hc)
  rw [List.all_eq_true] at hall
  rw [hall c hmem] at hcs
  cases hcs

/-- On a whitespace-only (lower-cased) text no keyword matches (helper,
instantiated at the four keyword bags; every keyword of the analyzer
contains a non-whitespace character). -/
lemma matchesCount_all_space (kws : List Str) (text : Str)
    (hk : ∀ kw ∈ kws, kw.any (fun c => !isSpaceB c) = true)
    (h : text.all isSpaceB = true) :
    matchesCount kws text = 0 := by
  rw [matchesCount_eq_countP]
  rw [List.countP_eq_zero]
  intro kw hkw
  simp only [Bool.not_eq_true]
  exact containsSub_all_space text kw h (hk kw hkw)

/-- C8. Every empty or whitespace-only text makes every keyword bag score 0,
so `detect_document_type` returns the unknown label (and, being a total
function, it returns rather than raising). -/
theorem detect_type_whitespace_unknown (text : Str)
    (h : text.all isSpaceB = true) :
    detect_document_type text = "Unknown document type" := by
  have hsp : (lowerS text).all isSpaceB = true := lowerS_all_space text h
  have hm1 : matchesCount (strs
      ["experience", "education", "skills", "work", "project", "objective",
       "summary", "employment", "qualification", "achievements"])
      (lowerS text) = 0 :=
    matchesCount_all_space _ _ (by decide) hsp
  have hm2 : matchesCount (strs
      ["grade", "marks", "score", "semester", "cgpa", "sgpa", "examination",
       "result", "academic year", "percentage"]) (lowerS text) = 0 :=
    matchesCount_all_space _ _ (by decide) hsp
  have hm3 : matchesCount (strs
      ["certificate", "certification", "awarded", "completed", "achievement",
       "training", "course completion", "qualified"]) (lowerS text) = 0 :=
    matchesCount_all_space _ _ (by decide) hsp
  have hm4 : matchesCount (strs
      ["id card", "identity", "student id", "employee id", "valid until",
       "date of issue", "identification"]) (lowerS text) = 0 :=
    matchesCount_all_space _ _ (by decide) hsp
  simp only [detect_document_type, document_types, List.map, scoreOf,
    hm1, hm2, hm3, hm4]
  norm_num [bestOf]

/-- Witness for C8 at the empty input. -/
theorem detect_type_whitespace_unknown_witness :
    detect_document_type "".data = "Unknown document type" :=
  detect_type_whitespace_unknown "".data (by decide)

/-! ### C9: extracted blocks are never empty strings -/

/-- Joining a nonempty list of lines whose head is nonempty gives a
nonempty string (helper). -/
lemma joinSp_ne_nil (a : Str) (rest : List Str) (ha : a ≠ []) :
    joinSp (a :: rest) ≠ [] := by
  cases rest with
  | nil => simpa [joinSp] using ha
  | cons b t =>
    simp [joinSp, List.intersperse]

/-- A nonempty pattern contained in a text forces the text nonempty
(helper). -/
lemma containsSub_hay_ne_nil (hay pat : Str) (h : containsSub hay pat = true)
    (hp : pat ≠ []) : hay ≠ [] := by
  rintro rfl
  unfold containsSub at h
  simp only [List.length_nil, List.range_succ, List.any_eq_true] at h
  rcases h with ⟨i, -, hi⟩
  rw [beq_iff_eq] at hi
  simp at hi
  exact hp hi

/-- A line containing one of a list of nonempty keywords is nonempty
(helper). -/
lemma anyKwIn_ne_nil (kws : List Str) (l : Str) (h : anyKwIn kws l = true)
    (hk : ∀ k ∈ kws, k ≠ []) : l ≠ [] := by
  unfold anyKwIn at h
  rw [List.any_eq_true] at h
  rcases h with ⟨kw, hkw, hc⟩
  have hkne : lowerS kw ≠ [] := by
    intro hnil
    exact hk kw hkw (by simpa [lowerS] using hnil)
  have := containsSub_hay_ne_nil _ _ hc hkne
  intro hnil
  exact this (by simp [hnil, lowerS])

/-- Membership in a list extended by one element (helper). -/
lemma mem_append_singleton {a x : Str} {l : List Str} (h : a ∈ l ++ [x]) :
    a ∈ l ∨ a = x := by
  rcases List.mem_append.mp h with h | h
  · exact Or.inl h
  · exact Or.inr (List.mem_singleton.mp h)

/-- Elements of a conditional flush of a nonempty accumulator are nonempty
(helper). -/
lemma flush_nonempty (acc blocks : List Str) (hacc : ∀ a ∈ acc, a ≠ [])
    (hblocks : ∀ b ∈ blocks, b ≠ []) :
    ∀ b ∈ (if acc.isEmpty then blocks else blocks ++ [joinSp acc]), b ≠ [] := by
  by_cases h : acc.isEmpty
  · simpa [h] using hblocks
  · rw [if_neg h]
    intro b hb
    rcases mem_append_singleton hb with h1 | rfl
    · exact hblocks b h1
    · cases acc with
      | nil => simp at h
      | cons a rest => exact joinSp_ne_nil a rest (hacc a (by simp))

/-- Invariant of the shared section loop: if every accumulated line and
every existing block is nonempty, then every returned block is nonempty —
the accumulator is only flushed when nonempty, and only nonempty stripped
lines are ever accumulated. -/
lemma sectionLoop_nonempty (kws : List Str) (hk : ∀ k ∈ kws, k ≠ [])
    (lines : List Str) :
    ∀ (inSec : Bool) (acc blocks : List Str),
      (∀ a ∈ acc, a ≠ []) → (∀ b ∈ blocks, b ≠ []) →
      ∀ b ∈ sectionLoop kws lines inSec acc blocks, b ≠ [] := by
  induction lines with
  | nil =>
    intro inSec acc blocks hacc hblocks
    exact flush_nonempty acc blocks hacc hblocks
  | cons line rest ih =>
    intro inSec acc blocks hacc hblocks
    simp only [sectionLoop]
    by_cases hA : anyKwIn kws (stripStr line) = true
    · rw [if_pos hA]
      by_cases hEq : eqAnyKw kws (stripStr line) = true
      · rw [if_pos hEq]
        exact ih true acc blocks hacc hblocks
      · rw [if_neg hEq]
        refine ih true (acc ++ [stripStr line]) blocks ?_ hblocks
        intro a ha
        rcases mem_append_singleton ha with h1 | rfl
        · exact hacc a h1
        · exact anyKwIn_ne_nil kws _ hA hk
    · rw [if_neg hA]
      cases inSec with
      | false =>
        rw [if_neg Bool.false_ne_true]
        exact ih false acc blocks hacc hblocks
      | true =>
        rw [if_pos rfl]
        by_cases hClose : (!(stripStr line).isEmpty &&
            anyKwIn resumeBag (stripStr line) &&
              !anyKwIn kws (stripStr line)) = true
        · rw [if_pos hClose]
          exact ih false [] _ (by simp)
            (flush_nonempty acc blocks hacc hblocks)
        · rw [if_neg hClose]
          by_cases hNe : (!(stripStr line).isEmpty) = true
          · rw [if_pos hNe]
            refine ih true (acc ++ [stripStr line]) blocks ?_ hblocks
            intro a ha
            rcases mem_append_singleton ha with h1 | rfl
            · exact hacc a h1
            · intro hnil
              rw [hnil] at hNe
              simp at hNe
          · rw [if_neg hNe]
            by_cases hAccE : acc.isEmpty = true
            · rw [if_pos hAccE]
              exact ih true [] blocks (by simp) hblocks
            · rw [if_neg hAccE]
              refine ih true [] (blocks ++ [joinSp acc]) (by simp) ?_
              intro b hb
              rcases mem_append_singleton hb with h1 | rfl
              · exact hblocks b h1
              · cases acc with
                | nil => simp at hAccE
                | cons a acct => exact joinSp_ne_nil a acct (hacc a (by simp))

/-- C9. For every input text, every block returned by `extract_education`,
`extract_experience` and `extract_projects` is a nonempty string: the
accumulator is flushed into a block only when it holds at least one
nonblank line. -/
theorem extract_blocks_nonempty (text : Str) :
    ((extract_education text).all fun b => !b.isEmpty) = true ∧
    ((extract_experience text).all fun b => !b.isEmpty) = true ∧
    ((extract_projects text).all fun b => !b.isEmpty) = true := by
  refine ⟨?_, ?_, ?_⟩ <;> rw [List.all_eq_true] <;> intro b hb
  · have := sectionLoop_nonempty educationKeywords (by decide) (linesOf text)
      false [] [] (by simp) (by simp) b hb
    cases b with
    | nil => exact absurd rfl this
    | cons c t => rfl
  · have := sectionLoop_nonempty experienceKeywords (by decide) (linesOf text)
      false [] [] (by simp) (by simp) b hb
    cases b with
    | nil => exact absurd rfl this
    | cons c t => rfl
  · have := sectionLoop_nonempty projectKeywords (by decide) (linesOf text)
      false [] [] (by simp) (by simp) b hb
    cases b with
    | nil => exact absurd rfl this
    | cons c t => rfl

/-! ### C3: the experience round-trip document -/

/-- Splitting a separator-free string gives the string itself (helper). -/
lemma splitP_sepfree (p : Char → Bool) (x : Str)
    (hx : (x.all fun ch => !p ch) = true) : splitP p x = [x] := by
  induction x with
  | nil => rfl
  | cons d ds ih =>
    simp only [List.all_cons, Bool.and_eq_true, Bool.not_eq_true'] at hx
    simp only [splitP]
    rw [if_neg (by simp [hx.1]), ih hx.2]

/-- Splitting distributes over a separator after a separator-free prefix
(helper). -/
lemma splitP_append (p : Char → Bool) (x y : Str)
    (hx : (x.all fun ch => !p ch) = true) (c : Char) (hc : p c = true) :
    splitP p (x ++ c :: y) = x :: splitP p y := by
  induction x with
  | nil =>
    simp only [List.nil_append, splitP]
    rw [if_pos hc]
  | cons d ds ih =>
    simp only [List.all_cons, Bool.and_eq_true, Bool.not_eq_true'] at hx
    simp only [List.cons_append, splitP, List.append_eq]
    rw [if_neg (by simp [hx.1]), ih hx.2]

/-- A line that is (case-insensitively) a keyword header only flips the
in-section flag (helper). -/
lemma sectionLoop_open_header (kws : List Str) (line : Str) (rest : List Str)
    (inSec : Bool) (acc blocks : List Str)
    (h1 : anyKwIn kws (stripStr line) = true)
    (h2 : eqAnyKw kws (stripStr line) = true) :
    sectionLoop kws (line :: rest) inSec acc blocks =
      sectionLoop kws rest true acc blocks := by
  simp only [sectionLoop]
  rw [if_pos h1, if_pos h2]

/-- Inside the section, a nonblank line that is not exactly a keyword and
that does not contain a generic resume keyword without a section keyword is
accumulated (helper). -/
lemma sectionLoop_accumulates (kws : List Str) (line : Str)
    (rest acc blocks : List Str)
    (hne : (stripStr line).isEmpty = false)
    (hexact : eqAnyKw kws (stripStr line) = false)
    (himp : anyKwIn resumeBag (stripStr line) = true →
      anyKwIn kws (stripStr line) = true) :
    sectionLoop kws (line :: rest) true acc blocks =
      sectionLoop kws rest true (acc ++ [stripStr line]) blocks := by
  simp only [sectionLoop]
  by_cases hA : anyKwIn kws (stripStr line) = true
  · rw [if_pos hA,
      if_neg (show ¬(eqAnyKw kws (stripStr line) = true) by simp [hexact])]
  · have hres : anyKwIn resumeBag (stripStr line) = false := by
      cases hr : anyKwIn resumeBag (stripStr line)
      · rfl
      · exact absurd (himp hr) hA
    rw [if_neg hA, if_pos trivial,
      if_neg (show ¬((!(stripStr line).isEmpty &&
          anyKwIn resumeBag (stripStr line) &&
            !anyKwIn kws (stripStr line)) = true) by simp [hres]),
      if_pos (show (!(stripStr line).isEmpty) = true by simp [hne])]

/-- Inside the section, a blank line flushes a nonempty accumulator into a
block (helper). -/
lemma sectionLoop_blank_flush (kws : List Str) (line : Str)
    (rest acc blocks : List Str)
    (hblank : (stripStr line).isEmpty = true)
    (hkw : anyKwIn kws (stripStr line) = false)
    (hacc : acc.isEmpty = false) :
    sectionLoop kws (line :: rest) true acc blocks =
      sectionLoop kws rest true [] (blocks ++ [joinSp acc]) := by
  simp only [sectionLoop]
  rw [if_neg (show ¬(anyKwIn kws (stripStr line) = true) by simp [hkw]),
    if_pos trivial,
    if_neg (show ¬((!(stripStr line).isEmpty &&
        anyKwIn resumeBag (stripStr line) &&
          !anyKwIn kws (stripStr line)) = true) by simp [hblank]),
    if_neg (show ¬((!(stripStr line).isEmpty) = true) by simp [hblank]),
    if_neg (show ¬(acc.isEmpty = true) by simp [hacc])]

/-- Inside the section with an empty accumulator, a nonblank line carrying a
generic resume keyword but no section keyword closes the section (helper). -/
lemma sectionLoop_close_empty_acc (kws : List Str) (line : Str)
    (rest blocks : List Str)
    (hkw : anyKwIn kws (stripStr line) = false)
    (hne : (stripStr line).isEmpty = false)
    (hres : anyKwIn resumeBag (stripStr line) = true) :
    sectionLoop kws (line :: rest) true [] blocks =
      sectionLoop kws rest false [] blocks := by
  simp only [sectionLoop]
  rw [if_neg (show ¬(anyKwIn kws (stripStr line) = true) by simp [hkw]),
    if_pos trivial,
    if_pos (show (!(stripStr line).isEmpty &&
        anyKwIn resumeBag (stripStr line) &&
          !anyKwIn kws (stripStr line)) = true by simp [hne, hres, hkw])]
  simp

/-- C3, counterexample: a document of the claimed shape — the header line
"EXPERIENCE", three nonblank lines, a blank line, then "EDUCATION" — for
which `extract_experience` returns no block at all: the second line
contains the generic resume keyword "education", so the section is closed
early and the accumulated content is dropped. -/
theorem extract_experience_roundtrip_counterexample :
    linesOf "EXPERIENCE\neducation here\nbb\ncc\n\nEDUCATION".data =
      ["EXPERIENCE".data, "education here".data, "bb".data, "cc".data,
        [], "EDUCATION".data] ∧
    extract_experience "EXPERIENCE\neducation here\nbb\ncc\n\nEDUCATION".data
      = [] := by
  set_option maxRecDepth 4000 in decide

/-- A string without a newline is newline-free character by character
(helper). -/
lemma all_ne_newline (x : Str) (hx : '\n' ∉ x) :
    (x.all fun ch => !(ch == '\n')) = true := by
  simp only [List.all_eq_true]
  intro ch hch
  cases hceq : (ch == '\n') with
  | false => rfl
  | true =>
    have : ch = '\n' := eq_of_beq hceq
    subst this
    exact absurd hch hx

/-- C3, amended: the round-trip holds provided none of the three content
lines is exactly an experience keyword (such a line would be treated as a
bare header and not accumulated) and any line containing a generic resume
keyword also contains an experience keyword (otherwise the section is
closed early).  The document then yields exactly one block holding the three
stripped lines joined, and nothing at or after "EDUCATION" is accumulated. -/
theorem extract_experience_roundtrip_amended (a b c : Str)
    (hna : '\n' ∉ a) (hnb : '\n' ∉ b) (hnc : '\n' ∉ c)
    (hba : (stripStr a).isEmpty = false)
    (hbb : (stripStr b).isEmpty = false)
    (hbc : (stripStr c).isEmpty = false)
    (hea : eqAnyKw experienceKeywords (stripStr a) = false)
    (heb : eqAnyKw experienceKeywords (stripStr b) = false)
    (hec : eqAnyKw experienceKeywords (stripStr c) = false)
    (hia : anyKwIn resumeBag (stripStr a) = true →
      anyKwIn experienceKeywords (stripStr a) = true)
    (hib : anyKwIn resumeBag (stripStr b) = true →
      anyKwIn experienceKeywords (stripStr b) = true)
    (hic : anyKwIn resumeBag (stripStr c) = true →
      anyKwIn experienceKeywords (stripStr c) = true) :
    extract_experience ("EXPERIENCE".data ++ '\n' ::
        (a ++ '\n' :: (b ++ '\n' :: (c ++ '\n' :: '\n' :: "EDUCATION".data)))) =
      [joinSp [stripStr a, stripStr b, stripStr c]] := by
  have h5 : splitP (fun ch => ch == '\n') ('\n' :: "EDUCATION".data) =
      [[], "EDUCATION".data] := by decide
  have hlines : linesOf ("EXPERIENCE".data ++ '\n' ::
      (a ++ '\n' :: (b ++ '\n' :: (c ++ '\n' :: '\n' :: "EDUCATION".data)))) =
      ["EXPERIENCE".data, a, b, c, [], "EDUCATION".data] := by
    unfold linesOf
    rw [splitP_append _ _ _ (by decide) '\n' rfl,
      splitP_append _ _ _ (all_ne_newline a hna) '\n' rfl,
      splitP_append _ _ _ (all_ne_newline b hnb) '\n' rfl,
      splitP_append _ _ _ (all_ne_newline c hnc) '\n' rfl, h5]
  unfold extract_experience
  rw [hlines]
  rw [sectionLoop_open_header _ _ _ _ _ _ (by decide) (by decide)]
  rw [sectionLoop_accumulates _ _ _ _ _ hba hea hia]
  rw [sectionLoop_accumulates _ _ _ _ _ hbb heb hib]
  rw [sectionLoop_accumulates _ _ _ _ _ hbc hec hic]
  simp only [List.nil_append, List.cons_append]
  rw [sectionLoop_blank_flush _ _ _
    [stripStr a, stripStr b, stripStr c] _ (by decide) (by decide) rfl]
  rw [sectionLoop_close_empty_acc _ _ _ _ (by decide) (by decide) (by decide)]
  simp [sectionLoop]

/-- Witness for the amended C3 at a concrete document. -/
theorem extract_experience_roundtrip_amended_witness :
    extract_experience ("EXPERIENCE".data ++ '\n' ::
        ("acme corp 2020".data ++ '\n' :: ("built internal tools".data ++ '\n' ::
          ("led a small team".data ++ '\n' :: '\n' :: "EDUCATION".data)))) =
      [joinSp [stripStr "acme corp 2020".data,
        stripStr "built internal tools".data,
        stripStr "led a small team".data]] :=
  extract_experience_roundtrip_amended _ _ _ (by decide) (by decide) (by decide)
    (by decide) (by decide) (by decide) (by decide) (by decide) (by decide)
    (by decide) (by decide) (by decide)

/-! ### C10: a skills entry without separators contributes nothing -/

/-- C10. The flush step of `extract_skills` only splits on separators that
actually occur in the joined entry; an entry containing none of the ten
separator characters is discarded without contributing any skill, as on the
document "Skills\nPython" whose only entry "Python" is dropped. -/
theorem skills_entry_without_separator_discarded :
    (∀ (skills : List Str) (entry : Str),
        (skillSeparators.all fun sep => !entry.contains sep) = true →
        processEntryText skills entry = skills) ∧
    extract_skills "Skills\nPython".data = [] := by
  refine ⟨?_, by decide⟩
  intro skills entry h
  simp only [skillSeparators, List.all_cons, List.all_nil, Bool.and_eq_true,
    Bool.not_eq_true', and_true] at h
  obtain ⟨h1, h2, h3, h4, h5, h6, h7, h8, h9, h10⟩ := h
  simp only [processEntryText, skillSeparators, List.foldl_cons, List.foldl_nil,
    h1, h2, h3, h4, h5, h6, h7, h8, h9, h10, Bool.false_eq_true, if_false]

/-- Witness for C10 at a concrete entry. -/
theorem skills_entry_without_separator_discarded_witness :
    processEntryText [] "Python".data = [] :=
  skills_entry_without_separator_discarded.1 [] "Python".data (by decide)
